import Mathlib

/-
  Verification development for the hierarchy-consistency and validation-chain
  subsystem of the alpaca-nextjs-boilerplate administration backend.

  Shallow embedding of:
    - src/lib/actions/user-actions.ts          (user validation, repository, service)
    - src/lib/actions/department-actions.ts    (department validation, repository, service)
    - src/lib/actions/organization-actions.ts  (organization service, permission gate)
    - prisma migration (enums, unique indexes, foreign-key delete behaviour)

  Modelling conventions:
    - TypeScript `string | null` / optional fields become `Option`; a DTO field
      that may be absent (`undefined`) on top of nullable becomes `Option (Option _)`
      with `none` = absent and `some none` = explicit null.
    - JavaScript falsiness of strings is modelled explicitly: `!s` is true for
      `null`/`undefined` and for the empty string.
    - Database tables become lists of row structures; `findUnique` on a key
      becomes `List.find?` on the corresponding predicate (the unique indexes of
      the migration make the row unique in real stores).
    - `new Date()` timestamps are abstract instants modelled as `Nat`, passed in
      as a `now` parameter; `expiresAt.setDate(getDate() + 7)` is modelled as
      `now + 7` at day granularity.
    - The upward parent/manager walks of the cycle detectors are `while` loops
      in the source; they are embedded as fuel-indexed recursions, and
      `store.length + 2` fuel is shown to be enough (the visited set grows at
      every step and draws from the finite table).
-/

namespace Alpaca

/-! ## Enums (prisma migration `CREATE TYPE`) -/

/-- `UserRole` enum from the prisma schema. -/
inductive UserRole where
  | SUPER_ADMIN
  | ADMIN
  | MANAGER
  | SUPERVISOR
  | USER
deriving DecidableEq, Repr

/-- `UserStatus` enum from the prisma schema. -/
inductive UserStatus where
  | ACTIVE
  | INACTIVE
  | SUSPENDED
deriving DecidableEq, Repr

/-- `OrgRole` enum from the prisma schema. -/
inductive OrgRole where
  | OWNER
  | ADMIN
  | MEMBER
deriving DecidableEq, Repr

/-- `InvitationStatus` enum from the prisma schema. -/
inductive InvitationStatus where
  | PENDING
  | ACCEPTED
  | REJECTED
  | EXPIRED
deriving DecidableEq, Repr

/-! ## ActionResult (src/lib/actions/types/action-types.ts)

`ActionResult<T>` is `{success, data?, error?, code?}`.  The validators and the
claims only inspect the success flag, the error message and the code, so the
`data` payload is not carried here; for mutation services the created data is
recovered from the returned store state instead. -/

/-- Result shape returned by every validator and service operation. -/
structure ActionResult where
  success : Bool
  error : Option String := none
  code : Option String := none
deriving DecidableEq, Repr

/-! ## Cycle detector (user-actions.ts `HierarchyValidationStrategy`,
department-actions.ts `CircularHierarchyValidationStrategy`)

Both walks only read the `id -> managerId` (resp. `id -> parentId`) projection
of their table, which is exactly what the source queries select
(`select: { managerId: true }` / `select: { parentId: true }`).  A store is
that projection: an association list from id to nullable parent id. -/

/-- The id ↦ nullable-parent-id projection of the `user` (manager edge) or
`department` (parent edge) table. -/
abbrev ParentStore : Type := List (String × Option String)

/-- `db.<table>.findUnique({ where: { id: k }, select: { parentId: true } })`:
`none` when no row has this id, otherwise the (nullable) parent reference of
the first row with this id (the id column is the primary key). -/
def findUniqueParent (store : ParentStore) (k : String) : Option (Option String) :=
  match store with
  | [] => none
  | (i, p) :: rest => if i = k then some p else findUniqueParent rest k

/-- Loop body of `HierarchyValidationStrategy.checkCircularReference`
(user-actions.ts).  State: remaining fuel, `currentManagerId`, `visitedIds`.
The `while (currentManagerId)` condition is JavaScript truthiness: the loop
exits — returning `false` — when the current id is null *or the empty
string*, before the body runs.  Inside the body a revisit returns `true` and
a missed lookup breaks with `false`.  Fuel `0` also yields `false`; the fuel
used below is proved sufficient, so this case is never the deciding one. -/
def checkCircularReferenceGo (store : ParentStore) :
    Nat → Option String → List String → Bool
  | 0, _, _ => false
  | _ + 1, none, _ => false
  | fuel + 1, some cur, visited =>
    if cur = "" then false
    else if cur ∈ visited then true
    else
      match findUniqueParent store cur with
      | none => false
      | some mId => checkCircularReferenceGo store fuel mId (cur :: visited)

/-- `checkCircularReference(userId, managerId)` from user-actions.ts: walk up
from the proposed manager with the visited set seeded `[userId]`. -/
def checkCircularReference (store : ParentStore) (userId managerId : String) : Bool :=
  checkCircularReferenceGo store (store.length + 2) (some managerId) [userId]

/-- Loop of `CircularHierarchyValidationStrategy.validate`
(department-actions.ts).  Identical walk — including the JS-falsy
`while (currentParentId)` exit on null or the empty string — except that a
missed lookup sets `currentParentId = null` (`parentDept?.parentId ?? null`)
and lets the loop exit, instead of breaking directly. -/
def circularWalkGo (store : ParentStore) :
    Nat → Option String → List String → Bool
  | 0, _, _ => false
  | _ + 1, none, _ => false
  | fuel + 1, some cur, visited =>
    if cur = "" then false
    else if cur ∈ visited then true
    else circularWalkGo store fuel ((findUniqueParent store cur).join) (cur :: visited)

/-- The department walk from `data.parentId` with visited seeded
`[data.departmentId]`. -/
def circularWalk (store : ParentStore) (departmentId parentId : String) : Bool :=
  circularWalkGo store (store.length + 2) (some parentId) [departmentId]

/-- Result values used by the hierarchy validators (user-actions.ts). -/
def circularReferenceFailure : ActionResult :=
  { success := false
    error := some "Un usuario no puede ser su propio manager"
    code := some "CIRCULAR_REFERENCE" }

/-- CIRCULAR_HIERARCHY failure shared by both hierarchy validators. -/
def circularHierarchyFailure : ActionResult :=
  { success := false
    error := some "Se detectó una referencia circular en la jerarquía"
    code := some "CIRCULAR_HIERARCHY" }

/-- `HierarchyValidationStrategy.validate` (user-actions.ts).  The guard
`if (!data.managerId)` is JavaScript truthiness: it accepts `undefined`,
`null` and the empty string as "no manager". -/
def HierarchyValidationStrategy.validate (store : ParentStore)
    (userId : String) (managerId : Option String) : ActionResult :=
  match managerId with
  | none => { success := true }
  | some m =>
    if m = "" then { success := true }
    else if userId = m then circularReferenceFailure
    else if checkCircularReference store userId m then circularHierarchyFailure
    else { success := true }

/-- `CircularHierarchyValidationStrategy.validate` (department-actions.ts):
runs the walk, returning CIRCULAR_HIERARCHY on a revisit and success when the
chain ends. -/
def CircularHierarchyValidationStrategy.validate (store : ParentStore)
    (departmentId parentId : String) : ActionResult :=
  if circularWalk store departmentId parentId then circularHierarchyFailure
  else { success := true }

/-! ### Specification-side walk (spec §4.1, refinement side)

Written from the spec's words, for comparison with the embedded code:
"starting from `proposedParentId`, repeatedly follow the parent reference
upward, maintaining a visited set seeded with `candidateNodeId`.  If the walk
revisits any id in the visited set (including re-encountering
`candidateNodeId` itself), a cycle would be created — return true.  If the
walk reaches a node with no parent (root), return false."; and per the claim,
reaching a missing node also ends the walk with success.  The visited set is a
`Finset`; the fuel bounds the walk and is proved irrelevant beyond
`store.length + 2`. -/

/-- Spec-side upward walk with a visited `Finset`. -/
def specCycleWalk (store : ParentStore) :
    Nat → Option String → Finset String → Bool
  | 0, _, _ => false
  | _ + 1, none, _ => false
  | fuel + 1, some cur, visited =>
    if cur ∈ visited then true
    else
      match findUniqueParent store cur with
      | none => false
      | some p => specCycleWalk store fuel p (insert cur visited)

/-- Spec contract `wouldCreateCycle(candidateNodeId, proposedParentId)`:
the walk from the proposed parent, visited set seeded with the candidate. -/
def specWouldCreateCycle (store : ParentStore) (candidate parent : String) : Bool :=
  specCycleWalk store (store.length + 2) (some parent) {candidate}

/-! ## Validation chain (the shared `ValidationHandler` base class)

The chain-of-responsibility is a linked list of handlers: `handle` runs the
handler's own `validate`, returns its result when it failed, otherwise
delegates to `next` (returning a fresh `{ success: true }` at the end of the
chain).  The embedding represents a registered chain as the list of the
handlers' `validate` functions, in registration order. -/

/-- `ValidationHandler.handle(data)` for the chain `chain` (the handlers'
`validate` functions in registration order). -/
def ValidationHandler.handle {α : Type} (chain : List (α → ActionResult)) (input : α) :
    ActionResult :=
  match chain with
  | [] => { success := true }
  | v :: rest =>
    let result := v input
    if result.success then ValidationHandler.handle rest input else result

/-- Call-count instrumentation of `handle`: how many of the chain's `validate`
functions are invoked on `input`.  Mirrors the recursion of `handle`, which
calls exactly one `validate` per visited handler before either returning its
failure or moving on. -/
def ValidationHandler.invokedCount {α : Type} (chain : List (α → ActionResult))
    (input : α) : Nat :=
  match chain with
  | [] => 0
  | v :: rest =>
    if (v input).success then 1 + ValidationHandler.invokedCount rest input else 1

/-! ## Tree assembler (department-actions.ts `DepartmentRepository.getHierarchy`)

The repository fetches every department row together with its user count
(`_count: { select: { users: true } }`); a fetched row is a `DeptFetched`.
The source then builds an id ↦ node map (pass 1) and links each node under its
parent's `children` array when `dept.parentId` is truthy and the parent id is
in the map, pushing nodes with falsy `parentId` onto `rootDepartments`
(pass 2).  Because the `id` column is the primary key, the map holds exactly
one node per row, and the shared-object mutation of pass 2 is equivalent to
materializing each node's children from the flat list: the children of the
node for row `p` are the nodes of the rows whose truthy `parentId` equals
`p.id`, in table order.  The fuel (number of rows) bounds the materialization
depth, which suffices for duplicate-free ids. -/

/-- A department row as fetched by `getHierarchy` (row plus its user count). -/
structure DeptFetched where
  id : String
  name : String
  description : Option String
  parentId : Option String
  userCount : Nat
deriving DecidableEq, Repr

/-- `DepartmentNode` from action-types.ts: a tree node carrying the row's
attributes and its children. -/
inductive DepartmentNode where
  | mk (id : String) (name : String) (description : Option String)
       (parentId : Option String) (children : List DepartmentNode) (userCount : Nat)
deriving Repr

/-- Id of a tree node. -/
def DepartmentNode.nodeId : DepartmentNode → String
  | .mk i _ _ _ _ _ => i

/-- Children of a tree node. -/
def DepartmentNode.nodeChildren : DepartmentNode → List DepartmentNode
  | .mk _ _ _ _ cs _ => cs

/-- JavaScript truthiness of a nullable string (`if (dept.parentId)`):
false for `null`/`undefined` and for the empty string. -/
def optTruthy : Option String → Bool
  | none => false
  | some s => if s = "" then false else true

/-- The rows that pass 2 pushes into the children array of the node with id
`pid`: rows with truthy `parentId` equal to `pid`, in table order. -/
def childRowsOf (depts : List DeptFetched) (pid : String) : List DeptFetched :=
  depts.filter (fun d => optTruthy d.parentId && decide (d.parentId = some pid))

/-- Materialization of one map node with its (recursively materialized)
children, cut off at `fuel` levels. -/
def toNode (depts : List DeptFetched) : Nat → DeptFetched → DepartmentNode
  | 0, d => .mk d.id d.name d.description d.parentId [] d.userCount
  | fuel + 1, d =>
    .mk d.id d.name d.description d.parentId
      ((childRowsOf depts d.id).map (toNode depts fuel)) d.userCount

/-- `DepartmentRepository.getHierarchy`: the returned forest is the list of
nodes whose row has falsy `parentId` (pass 2's `rootDepartments`), in table
order, each with its materialized children. -/
def getHierarchy (depts : List DeptFetched) : List DepartmentNode :=
  (depts.filter (fun d => !optTruthy d.parentId)).map (toNode depts depts.length)

mutual

/-- All ids occurring anywhere in a tree. -/
def nodeIds : DepartmentNode → List String
  | .mk i _ _ _ cs _ => i :: forestNodeIds cs

/-- All ids occurring anywhere in a forest. -/
def forestNodeIds : List DepartmentNode → List String
  | [] => []
  | n :: ns => nodeIds n ++ forestNodeIds ns

end

/-! ## Organization model (organization-actions.ts, prisma migration)

The `organization_member` table has a unique index on
`(organizationId, userId)` and the `organization_invitation` table a unique
index on `(organizationId, email)`; `findUnique` on those keys is embedded as
`List.find?` on the pair predicate. -/

/-- A row of `organization_member`. -/
structure MemberRow where
  id : String
  organizationId : String
  userId : String
  role : OrgRole
  createdAt : Nat
  updatedAt : Nat
deriving DecidableEq, Repr

/-- A row of `organization_invitation` (the `createdAt`/`updatedAt` columns
are filled by store defaults and never read by this subsystem, so they are
not carried). -/
structure InvitationRow where
  id : String
  organizationId : String
  email : String
  role : OrgRole
  status : InvitationStatus
  inviterId : String
  expiresAt : Nat
deriving DecidableEq, Repr

/-- The organization-scoped part of the store. -/
structure OrgDb where
  members : List MemberRow
  invitations : List InvitationRow
deriving DecidableEq, Repr

/-- JavaScript `email.toLowerCase()`: lowercase every character.  (Stated via
`Char.toLower` over the string's characters so that concrete instances
evaluate inside the kernel.) -/
def toLowerCase (s : String) : String :=
  ⟨s.data.map Char.toLower⟩

/-- `OrganizationRepository.findMember`: `findUnique` on the
`(organizationId, userId)` key. -/
def findMember (db : OrgDb) (organizationId userId : String) : Option MemberRow :=
  db.members.find?
    (fun m => decide (m.organizationId = organizationId ∧ m.userId = userId))

/-- `OrganizationRepository.findInvitation`: `findUnique` on
`(organizationId, email.toLowerCase())`. -/
def findInvitation (db : OrgDb) (organizationId email : String) : Option InvitationRow :=
  db.invitations.find?
    (fun i => decide (i.organizationId = organizationId ∧ i.email = toLowerCase email))

/-- INSUFFICIENT_PERMISSIONS failure of the permission gate. -/
def insufficientPermissions : ActionResult :=
  { success := false
    error := some "No tienes permisos para realizar esta acción"
    code := some "INSUFFICIENT_PERMISSIONS" }

/-- `PermissionValidationStrategy.validate` (organization-actions.ts): look up
the actor's membership row; fail with INSUFFICIENT_PERMISSIONS when there is
none or its role is not in `requiredRoles`.  It takes the store and returns
only a result, so by construction it cannot modify state. -/
def PermissionValidationStrategy.validate (db : OrgDb)
    (organizationId userId : String) (requiredRoles : List OrgRole) : ActionResult :=
  match findMember db organizationId userId with
  | none => insufficientPermissions
  | some member =>
    if member.role ∈ requiredRoles then { success := true }
    else insufficientPermissions

/-- MEMBER_NOT_FOUND failure. -/
def memberNotFound : ActionResult :=
  { success := false
    error := some "El miembro no existe en esta organización"
    code := some "MEMBER_NOT_FOUND" }

/-- CANNOT_REMOVE_OWNER failure. -/
def cannotRemoveOwner : ActionResult :=
  { success := false
    error := some "No se puede eliminar al propietario de la organización"
    code := some "CANNOT_REMOVE_OWNER" }

/-- CANNOT_CHANGE_OWNER_ROLE failure. -/
def cannotChangeOwnerRole : ActionResult :=
  { success := false
    error := some "No se puede cambiar el rol del propietario de la organización"
    code := some "CANNOT_CHANGE_OWNER_ROLE" }

/-- INVITATION_EXISTS failure. -/
def invitationExists : ActionResult :=
  { success := false
    error := some "Ya existe una invitación pendiente para este email"
    code := some "INVITATION_EXISTS" }

/-- INVITE_ERROR: the service's catch block around `inviteMember`, reached when
the store raises (for this subsystem: the unique `(organizationId, email)`
index rejecting the insert).  The store's exception message is abstracted. -/
def inviteError : ActionResult :=
  { success := false
    error := some "Unique constraint failed on organization_invitation"
    code := some "INVITE_ERROR" }

/-- `OrganizationService.removeMember(organizationId, userId)`.  Note the
signature: there is no requester parameter and no permission gate — the
outcome depends only on the store.  On success the repository deletes the row
with the unique `(organizationId, userId)` key. -/
def OrganizationService.removeMember (db : OrgDb)
    (organizationId userId : String) : ActionResult × OrgDb :=
  match findMember db organizationId userId with
  | none => (memberNotFound, db)
  | some member =>
    if member.role = OrgRole.OWNER then (cannotRemoveOwner, db)
    else
      ({ success := true },
       { db with
          members := db.members.filter
            (fun m => decide (¬(m.organizationId = organizationId ∧ m.userId = userId))) })

/-- `removeOrganizationMember` server action: delegates to the singleton
service. -/
def removeOrganizationMember (db : OrgDb) (organizationId userId : String) :
    ActionResult × OrgDb :=
  OrganizationService.removeMember db organizationId userId

/-- `OrganizationService.updateMemberRole(organizationId, userId, role,
requesterId)`: permission gate on the requester with `[OWNER, ADMIN]`, then
member lookup, then the owner-demotion guard; on success the repository
updates the row's role (and its `updatedAt`). -/
def OrganizationService.updateMemberRole (db : OrgDb)
    (organizationId userId : String) (role : OrgRole) (requesterId : String)
    (now : Nat) : ActionResult × OrgDb :=
  let permissionResult :=
    PermissionValidationStrategy.validate db organizationId requesterId
      [OrgRole.OWNER, OrgRole.ADMIN]
  if permissionResult.success = false then (permissionResult, db)
  else
    match findMember db organizationId userId with
    | none => (memberNotFound, db)
    | some member =>
      if member.role = OrgRole.OWNER ∧ role ≠ OrgRole.OWNER then
        (cannotChangeOwnerRole, db)
      else
        ({ success := true },
         { db with
            members := db.members.map
              (fun m =>
                if m.organizationId = organizationId ∧ m.userId = userId then
                  { m with role := role, updatedAt := now }
                else m) })

/-- `InviteMemberDTO` from action-types.ts. -/
structure InviteMemberDTO where
  organizationId : String
  email : String
  role : Option OrgRole := none
  inviterId : String
deriving DecidableEq, Repr

/-- `OrganizationRepository.createInvitation`: inserts a row with the email
lowercased, status PENDING, and `expiresAt` seven days after `now`
(`expiresAt.setDate(expiresAt.getDate() + 7)`, at day granularity).  The
store's unique `(organizationId, email)` index makes the insert throw when any
row for that pair already exists; `Except.error` is that exception. -/
def createInvitation (db : OrgDb) (newId : String) (dto : InviteMemberDTO)
    (now : Nat) : Except Unit (InvitationRow × OrgDb) :=
  let row : InvitationRow :=
    { id := newId
      organizationId := dto.organizationId
      email := toLowerCase dto.email
      role := dto.role.getD OrgRole.MEMBER
      status := InvitationStatus.PENDING
      inviterId := dto.inviterId
      expiresAt := now + 7 }
  if db.invitations.any
      (fun i => decide (i.organizationId = dto.organizationId ∧ i.email = toLowerCase dto.email)) then
    Except.error ()
  else
    Except.ok (row, { db with invitations := db.invitations ++ [row] })

/-- `OrganizationService.inviteMember(dto)`: permission gate on the inviter
with `[OWNER, ADMIN]`; reject with INVITATION_EXISTS when a PENDING invitation
for `(organizationId, email.toLowerCase())` exists; otherwise insert, mapping
a store exception to INVITE_ERROR via the catch block. -/
def OrganizationService.inviteMember (db : OrgDb) (dto : InviteMemberDTO)
    (newId : String) (now : Nat) : ActionResult × OrgDb :=
  let permissionResult :=
    PermissionValidationStrategy.validate db dto.organizationId dto.inviterId
      [OrgRole.OWNER, OrgRole.ADMIN]
  if permissionResult.success = false then (permissionResult, db)
  else if (findInvitation db dto.organizationId dto.email).any
      (fun i => decide (i.status = InvitationStatus.PENDING)) then
    (invitationExists, db)
  else
    match createInvitation db newId dto now with
    | Except.ok (_, db2) => ({ success := true }, db2)
    | Except.error _ => (inviteError, db)

/-! ## User and department rows, deletion guards, partial updates -/

/-- A row of the `user` table (the columns this subsystem reads or writes). -/
structure UserRow where
  id : String
  name : String
  email : String
  emailVerified : Bool
  image : Option String
  phone : Option String
  birthDate : Option Nat
  createdAt : Nat
  updatedAt : Nat
  banned : Bool
  banReason : Option String
  banExpires : Option Nat
  role : UserRole
  status : UserStatus
  departmentId : Option String
  managerId : Option String
deriving DecidableEq, Repr

/-- A row of the `department` table. -/
structure DeptRow where
  id : String
  name : String
  description : Option String
  parentId : Option String
  createdAt : Nat
  updatedAt : Nat
deriving DecidableEq, Repr

/-- The user/department part of the store. -/
structure AdminDb where
  departments : List DeptRow
  users : List UserRow
deriving DecidableEq, Repr

/-- NOT_FOUND failure of `UserService.deleteUser`. -/
def userNotFound : ActionResult :=
  { success := false
    error := some "Usuario no encontrado"
    code := some "NOT_FOUND" }

/-- HAS_SUBORDINATES failure. -/
def hasSubordinates : ActionResult :=
  { success := false
    error := some "No se puede eliminar un usuario con subordinados"
    code := some "HAS_SUBORDINATES" }

/-- NOT_FOUND failure of `DepartmentService.deleteDepartment`. -/
def departmentNotFound : ActionResult :=
  { success := false
    error := some "Departamento no encontrado"
    code := some "NOT_FOUND" }

/-- HAS_USERS failure. -/
def hasUsers : ActionResult :=
  { success := false
    error := some "No se puede eliminar un departamento con usuarios asignados"
    code := some "HAS_USERS" }

/-- HAS_CHILDREN failure. -/
def hasChildren : ActionResult :=
  { success := false
    error := some "No se puede eliminar un departamento con subdepartamentos"
    code := some "HAS_CHILDREN" }

/-- Subordinates relation fetched by `UserRepository.findById`
(`subordinates` include): users whose `managerId` is this user. -/
def subordinatesOf (db : AdminDb) (id : String) : List UserRow :=
  db.users.filter (fun u => decide (u.managerId = some id))

/-- `UserService.deleteUser(id)`: look the user up (NOT_FOUND when absent),
refuse with HAS_SUBORDINATES when `user.subordinates.length > 0`, otherwise
delete the row (the `managerId` foreign key is ON DELETE SET NULL, a no-op
here since the subordinate set is empty; the better-auth `account` rows the
repository also deletes are outside this model). -/
def UserService.deleteUser (db : AdminDb) (id : String) : ActionResult × AdminDb :=
  match db.users.find? (fun u => decide (u.id = id)) with
  | none => (userNotFound, db)
  | some _ =>
    if (subordinatesOf db id).length > 0 then (hasSubordinates, db)
    else
      ({ success := true },
       { db with users := db.users.filter (fun u => decide (¬u.id = id)) })

/-- Users assigned to a department (`_count: { select: { users: true } }`). -/
def usersOfDepartment (db : AdminDb) (id : String) : List UserRow :=
  db.users.filter (fun u => decide (u.departmentId = some id))

/-- Child departments (`children` include). -/
def childrenOfDepartment (db : AdminDb) (id : String) : List DeptRow :=
  db.departments.filter (fun d => decide (d.parentId = some id))

/-- `DepartmentService.deleteDepartment(id)`: look the department up
(NOT_FOUND when absent), refuse with HAS_USERS when `_count.users > 0`, then
with HAS_CHILDREN when `children.length > 0`, otherwise delete the row.  The
store's ON DELETE SET NULL foreign keys (department parent, user department)
are no-ops here because both dependent sets are empty at that point. -/
def DepartmentService.deleteDepartment (db : AdminDb) (id : String) :
    ActionResult × AdminDb :=
  match db.departments.find? (fun d => decide (d.id = id)) with
  | none => (departmentNotFound, db)
  | some _ =>
    if (usersOfDepartment db id).length > 0 then (hasUsers, db)
    else if (childrenOfDepartment db id).length > 0 then (hasChildren, db)
    else
      ({ success := true },
       { db with departments := db.departments.filter (fun d => decide (¬d.id = id)) })

/-- `UpdateUserDTO` from action-types.ts.  `none` is an absent (`undefined`)
field; for nullable columns `some none` is an explicit null. -/
structure UpdateUserDTO where
  id : String
  name : Option String := none
  email : Option String := none
  phone : Option (Option String) := none
  birthDate : Option (Option Nat) := none
  image : Option (Option String) := none
  role : Option UserRole := none
  status : Option UserStatus := none
  departmentId : Option (Option String) := none
  managerId : Option (Option String) := none
  banned : Option Bool := none
  banReason : Option (Option String) := none
  banExpires : Option (Option Nat) := none
deriving DecidableEq, Repr

/-- The record built by `UserDataFactory.prepareUpdateData`: a key is present
exactly when the corresponding DTO field is defined. -/
structure UserUpdateData where
  name : Option String := none
  email : Option String := none
  role : Option UserRole := none
  status : Option UserStatus := none
  departmentId : Option (Option String) := none
  managerId : Option (Option String) := none
  image : Option (Option String) := none
  birthDate : Option (Option Nat) := none
  phone : Option (Option String) := none
  banned : Option Bool := none
  banReason : Option (Option String) := none
  banExpires : Option (Option Nat) := none
deriving DecidableEq, Repr

/-- `UserDataFactory.prepareUpdateData(dto)`: copy each field into the update
record only when it is defined (`if (dto.f !== undefined) data.f = dto.f`). -/
def UserDataFactory.prepareUpdateData (dto : UpdateUserDTO) : UserUpdateData :=
  { name := dto.name
    email := dto.email
    role := dto.role
    status := dto.status
    departmentId := dto.departmentId
    managerId := dto.managerId
    image := dto.image
    birthDate := dto.birthDate
    phone := dto.phone
    banned := dto.banned
    banReason := dto.banReason
    banExpires := dto.banExpires }

/-- `db.user.update({ where: { id }, data: { ...preparedData, updatedAt: new
Date() } })`: prisma writes exactly the keys present in `data`, leaving every
other column at its prior value. -/
def dbUserUpdate (u : UserRow) (d : UserUpdateData) (now : Nat) : UserRow :=
  { u with
    name := d.name.getD u.name
    email := d.email.getD u.email
    role := d.role.getD u.role
    status := d.status.getD u.status
    departmentId := d.departmentId.getD u.departmentId
    managerId := d.managerId.getD u.managerId
    image := d.image.getD u.image
    birthDate := d.birthDate.getD u.birthDate
    phone := d.phone.getD u.phone
    banned := d.banned.getD u.banned
    banReason := d.banReason.getD u.banReason
    banExpires := d.banExpires.getD u.banExpires
    updatedAt := now }

/-- `UserRepository.update(id, data)` applied to the row it addresses. -/
def UserRepository.update (u : UserRow) (dto : UpdateUserDTO) (now : Nat) : UserRow :=
  dbUserUpdate u (UserDataFactory.prepareUpdateData dto) now

/-- `UpdateDepartmentDTO` from action-types.ts. -/
structure UpdateDepartmentDTO where
  id : String
  name : Option String := none
  description : Option (Option String) := none
  parentId : Option (Option String) := none
deriving DecidableEq, Repr

/-- `DepartmentRepository.update(id, data)` applied to the row it addresses:
`updateData` starts with `updatedAt` and adds each DTO field only when it is
defined. -/
def DepartmentRepository.update (d : DeptRow) (dto : UpdateDepartmentDTO)
    (now : Nat) : DeptRow :=
  { d with
    updatedAt := now
    name := dto.name.getD d.name
    description := dto.description.getD d.description
    parentId := dto.parentId.getD d.parentId }

/-! ## Shared helper lemmas -/

/-- A successful parent lookup comes from a row of the table. -/
theorem findUniqueParent_mem :
    ∀ (store : ParentStore) (k : String) (p : Option String),
    findUniqueParent store k = some p → (k, p) ∈ store := by
  intro store
  induction store with
  | nil => intro k p h; cases h
  | cons e rest ih =>
    obtain ⟨i, q⟩ := e
    intro k p h
    rw [findUniqueParent] at h
    split_ifs at h with hik
    · subst hik
      injection h with h2
      subst h2
      exact List.mem_cons_self _ _
    · exact List.mem_cons_of_mem _ (ih k p h)

/-- Over stores that never record an empty-string parent reference, the
user-side walk agrees with the spec-side walk at every fuel and every
non-empty current id: the only remaining difference is the representation of
the visited set.  (Without those conditions the walks differ: the source's
`while (currentManagerId)` exits on the JS-falsy `""`, which the spec's walk,
treating ids as opaque, follows like any other id.) -/
theorem checkCircularReferenceGo_eq_spec (store : ParentStore)
    (hstore : ∀ e ∈ store, e.2 ≠ some "") :
    ∀ (fuel : Nat) (cur : Option String) (visited : List String),
    cur ≠ some "" →
    checkCircularReferenceGo store fuel cur visited
      = specCycleWalk store fuel cur visited.toFinset := by
  intro fuel
  induction fuel with
  | zero => intro cur visited _; cases cur <;> rfl
  | succ n ih =>
    intro cur visited hcur
    cases cur with
    | none => rfl
    | some c =>
      have hc : ¬(c = "") := fun h => hcur (by rw [h])
      by_cases h : c ∈ visited
      · simp [checkCircularReferenceGo, specCycleWalk, hc, h]
      · simp only [checkCircularReferenceGo, specCycleWalk, List.mem_toFinset,
          if_neg hc, if_neg h]
        cases hf : findUniqueParent store c with
        | none => rfl
        | some p =>
          have hp : p ≠ some "" := hstore (c, p) (findUniqueParent_mem store c p hf)
          simpa [List.toFinset_cons] using ih p (c :: visited) hp

/-- The department-side walk also agrees with the spec-side walk under the
same conditions: a missed lookup makes it take one further step with a null
current id, which exits with the same `false`. -/
theorem circularWalkGo_eq_spec (store : ParentStore)
    (hstore : ∀ e ∈ store, e.2 ≠ some "") :
    ∀ (fuel : Nat) (cur : Option String) (visited : List String),
    cur ≠ some "" →
    circularWalkGo store fuel cur visited
      = specCycleWalk store fuel cur visited.toFinset := by
  intro fuel
  induction fuel with
  | zero => intro cur visited _; cases cur <;> rfl
  | succ n ih =>
    intro cur visited hcur
    cases cur with
    | none => rfl
    | some c =>
      have hc : ¬(c = "") := fun h => hcur (by rw [h])
      by_cases h : c ∈ visited
      · simp [circularWalkGo, specCycleWalk, hc, h]
      · simp only [circularWalkGo, specCycleWalk, List.mem_toFinset,
          if_neg hc, if_neg h]
        cases hf : findUniqueParent store c with
        | none =>
          cases n <;> simp [circularWalkGo, Option.join]
        | some p =>
          have hp : p ≠ some "" := hstore (c, p) (findUniqueParent_mem store c p hf)
          simpa [Option.join, List.toFinset_cons] using ih p (c :: visited) hp

/-- The spec walk detects direct self-parenting at once: the candidate seeds
the visited set. -/
theorem specWouldCreateCycle_self (store : ParentStore) (c : String) :
    specWouldCreateCycle store c c = true := by
  show specCycleWalk store (store.length + 1 + 1) (some c) {c} = true
  simp [specCycleWalk]

/-- The user-side detector computes exactly the spec contract on stores
without empty-string parent references and non-empty proposed parents. -/
theorem checkCircularReference_eq_spec (store : ParentStore)
    (hstore : ∀ e ∈ store, e.2 ≠ some "") (cand par : String) (hpar : par ≠ "") :
    checkCircularReference store cand par = specWouldCreateCycle store cand par := by
  rw [checkCircularReference, specWouldCreateCycle,
    checkCircularReferenceGo_eq_spec store hstore (store.length + 2) (some par)
      [cand] (by simpa using hpar)]
  simp

/-- The department-side detector computes exactly the spec contract under the
same conditions. -/
theorem circularWalk_eq_spec (store : ParentStore)
    (hstore : ∀ e ∈ store, e.2 ≠ some "") (cand par : String) (hpar : par ≠ "") :
    circularWalk store cand par = specWouldCreateCycle store cand par := by
  rw [circularWalk, specWouldCreateCycle,
    circularWalkGo_eq_spec store hstore (store.length + 2) (some par)
      [cand] (by simpa using hpar)]
  simp

/-! ## Claim C1 -/

/-- C1 (amended).  For every store whose rows never record an empty-string
parent reference, and every candidate/proposed-parent pair with a non-empty
proposed parent id: the user-side manager validator fails exactly when the
spec walk (started at the proposed parent, visited set seeded with the
candidate) revisits an id, returning CIRCULAR_REFERENCE on direct
self-parenting and CIRCULAR_HIERARCHY on any other revisit; the
department-side validator fails exactly when that walk revisits, always with
code CIRCULAR_HIERARCHY (also for direct self-parenting); when the walk ends
at a root or a missing node both validators succeed (the iff right-to-left
directions).  Both non-emptiness hypotheses come from JS truthiness: the user
validator's entry guard treats an empty-string manager id as "no manager",
and both walks' `while` conditions exit on a stored empty-string reference
(the counterexample exhibits both divergences). -/
theorem claim1_hierarchy_validator_refines_spec_walk
    (store : ParentStore) (cand par : String) (hpar : par ≠ "")
    (hstore : ∀ e ∈ store, e.2 ≠ some "") :
    ((HierarchyValidationStrategy.validate store cand (some par)).success = false
        ↔ specWouldCreateCycle store cand par = true)
    ∧ (cand = par →
        HierarchyValidationStrategy.validate store cand (some par)
          = circularReferenceFailure)
    ∧ (cand ≠ par → specWouldCreateCycle store cand par = true →
        HierarchyValidationStrategy.validate store cand (some par)
          = circularHierarchyFailure)
    ∧ ((CircularHierarchyValidationStrategy.validate store cand par).success = false
        ↔ specWouldCreateCycle store cand par = true)
    ∧ (specWouldCreateCycle store cand par = true →
        CircularHierarchyValidationStrategy.validate store cand par
          = circularHierarchyFailure) := by
  have hdept : CircularHierarchyValidationStrategy.validate store cand par
      = if specWouldCreateCycle store cand par then circularHierarchyFailure
        else { success := true } := by
    rw [CircularHierarchyValidationStrategy.validate,
      circularWalk_eq_spec store hstore cand par hpar]
  by_cases hc : cand = par
  · subst hc
    have hspec : specWouldCreateCycle store cand cand = true :=
      specWouldCreateCycle_self store cand
    have huser : HierarchyValidationStrategy.validate store cand (some cand)
        = circularReferenceFailure := by
      simp [HierarchyValidationStrategy.validate, hpar]
    refine ⟨?_, fun _ => huser, fun h => absurd rfl h, ?_, ?_⟩
    · simp [huser, hspec, circularReferenceFailure]
    · simp [hdept, hspec, circularHierarchyFailure]
    · intro _; simp [hdept, hspec]
  · have huser : HierarchyValidationStrategy.validate store cand (some par)
        = if specWouldCreateCycle store cand par then circularHierarchyFailure
          else { success := true } := by
      rw [HierarchyValidationStrategy.validate]
      simp only [hpar, if_false, hc,
        checkCircularReference_eq_spec store hstore cand par hpar]
    refine ⟨?_, fun h => absurd h hc, fun _ h => ?_, ?_, ?_⟩
    · by_cases hs : specWouldCreateCycle store cand par = true <;>
        simp [huser, hs, circularHierarchyFailure]
    · simp [huser, h]
    · by_cases hs : specWouldCreateCycle store cand par = true <;>
        simp [hdept, hs, circularHierarchyFailure]
    · intro h; simp [hdept, h]

/-- C1 counterexample.  JavaScript truthiness breaks the claim at two spots.
First, with candidate and proposed parent both the empty string, the
user-side validator succeeds (the guard `if (!data.managerId)` treats the
empty string as "no manager") even though this is direct self-parenting and
the spec walk revisits the seeded candidate at once — so, as stated,
"self-parenting is always rejected" and "fails exactly when the walk
revisits" are both false.  Second, on the store
`[("m", ""), ("", "m")]` the `while (currentManagerId)` /
`while (currentParentId)` conditions exit at the stored `""` reference, so
both validators succeed for candidate `"x"` and proposed parent `"m"` even
though the spec walk, following `""` like any other id, revisits `"m"`.
Additionally, the department-side validator reports direct self-parenting as
CIRCULAR_HIERARCHY, not CIRCULAR_REFERENCE. -/
theorem claim1_counterexample :
    (HierarchyValidationStrategy.validate [] "" (some "")).success = true
    ∧ specWouldCreateCycle [] "" "" = true
    ∧ (HierarchyValidationStrategy.validate
        [("m", some ""), ("", some "m")] "x" (some "m")).success = true
    ∧ (CircularHierarchyValidationStrategy.validate
        [("m", some ""), ("", some "m")] "x" "m").success = true
    ∧ specWouldCreateCycle [("m", some ""), ("", some "m")] "x" "m" = true
    ∧ (CircularHierarchyValidationStrategy.validate [] "d" "d").code
        = some "CIRCULAR_HIERARCHY"
    ∧ ¬(CircularHierarchyValidationStrategy.validate [] "d" "d").code
        = some "CIRCULAR_REFERENCE" := by
  refine ⟨rfl, by decide, by decide, by decide, by decide, by decide, by decide⟩

/-- C1 witness: the amended theorem applied to the store with the single edge
`"b" ↦ "a"`, candidate `"a"`, proposed parent `"b"` — a two-node cycle
attempt. -/
theorem claim1_witness :
    ("b" : String) ≠ ""
    ∧ (∀ e ∈ ([("b", some "a")] : ParentStore), e.2 ≠ some "")
    ∧ (((HierarchyValidationStrategy.validate [("b", some "a")] "a" (some "b")).success = false
          ↔ specWouldCreateCycle [("b", some "a")] "a" "b" = true)
       ∧ (("a" : String) = "b" →
            HierarchyValidationStrategy.validate [("b", some "a")] "a" (some "b")
              = circularReferenceFailure)
       ∧ (("a" : String) ≠ "b" → specWouldCreateCycle [("b", some "a")] "a" "b" = true →
            HierarchyValidationStrategy.validate [("b", some "a")] "a" (some "b")
              = circularHierarchyFailure)
       ∧ (((CircularHierarchyValidationStrategy.validate [("b", some "a")] "a" "b").success = false)
          ↔ specWouldCreateCycle [("b", some "a")] "a" "b" = true)
       ∧ (specWouldCreateCycle [("b", some "a")] "a" "b" = true →
            CircularHierarchyValidationStrategy.validate [("b", some "a")] "a" "b"
              = circularHierarchyFailure)) :=
  ⟨by decide, by decide,
   claim1_hierarchy_validator_refines_spec_walk [("b", some "a")] "a" "b"
     (by decide) (by decide)⟩

/-! ## Claim C2 -/

/-- C2.  For every validation chain and every input: when some validator
fails, `handle` returns the first failing validator's result unchanged, and
the number of `validate` invocations is one more than the number of leading
successes — so no validator after the first failing one is evaluated; when
every validator succeeds, `handle` returns overall success after invoking the
whole chain. -/
theorem claim2_chain_short_circuits_on_first_failure {α : Type}
    (chain : List (α → ActionResult)) (input : α) :
    (∀ r, (chain.map (fun v => v input)).find? (fun r => !r.success) = some r →
        ValidationHandler.handle chain input = r
        ∧ ValidationHandler.invokedCount chain input
            = ((chain.map (fun v => v input)).takeWhile (fun r => r.success)).length + 1)
    ∧ ((∀ v ∈ chain, (v input).success = true) →
        ValidationHandler.handle chain input = { success := true }
        ∧ ValidationHandler.invokedCount chain input = chain.length) := by
  induction chain with
  | nil =>
    exact ⟨fun r h => by simp at h, fun _ => ⟨rfl, rfl⟩⟩
  | cons v rest ih =>
    constructor
    · intro r hr
      by_cases hv : (v input).success
      · rw [List.map_cons, List.find?_cons] at hr
        simp only [hv, Bool.not_true] at hr
        have h1 := (ih.1 r hr).1
        have h2 := (ih.1 r hr).2
        constructor
        · simpa [ValidationHandler.handle, hv] using h1
        · simp [ValidationHandler.invokedCount, hv, h2, List.takeWhile_cons,
            Nat.add_comm]
      · rw [List.map_cons, List.find?_cons] at hr
        have hv' : (v input).success = false := by
          exact Bool.not_eq_true _ ▸ (by simpa using hv)
        simp only [hv', Bool.not_false] at hr
        cases hr
        constructor
        · simp [ValidationHandler.handle, hv']
        · simp [ValidationHandler.invokedCount, hv', List.takeWhile_cons]
    · intro hall
      have hv : (v input).success = true := hall v (List.mem_cons_self v rest)
      have hrest := ih.2 (fun w hw => hall w (List.mem_cons_of_mem v hw))
      constructor
      · simpa [ValidationHandler.handle, hv] using hrest.1
      · simp [ValidationHandler.invokedCount, hv, hrest.2, Nat.add_comm]

/-- C2 witness: a chain `[A, B, C]` on input `()` whose head `A` fails — the
chain returns exactly A's result and only one validator is invoked. -/
theorem claim2_witness :
    (([fun _ => ({ success := false, error := some "a", code := some "A_FAIL" } : ActionResult),
       fun _ => ({ success := true } : ActionResult),
       fun _ => ({ success := true } : ActionResult)].map (fun v => v ())).find?
        (fun r => !r.success)
      = some { success := false, error := some "a", code := some "A_FAIL" })
    ∧ (ValidationHandler.handle
        [fun _ => ({ success := false, error := some "a", code := some "A_FAIL" } : ActionResult),
         fun _ => ({ success := true } : ActionResult),
         fun _ => ({ success := true } : ActionResult)] ()
        = { success := false, error := some "a", code := some "A_FAIL" }
      ∧ ValidationHandler.invokedCount
          [fun _ => ({ success := false, error := some "a", code := some "A_FAIL" } : ActionResult),
           fun _ => ({ success := true } : ActionResult),
           fun _ => ({ success := true } : ActionResult)] ()
        = (([fun _ => ({ success := false, error := some "a", code := some "A_FAIL" } : ActionResult),
            fun _ => ({ success := true } : ActionResult),
            fun _ => ({ success := true } : ActionResult)].map (fun v => v ())).takeWhile
            (fun r => r.success)).length + 1) :=
  ⟨by decide,
   (claim2_chain_short_circuits_on_first_failure _ ()).1 _ (by decide)⟩

/-! ## Claim C3 -/

/-- The root id of a materialized node is the row's id. -/
theorem toNode_nodeId (depts : List DeptFetched) (fuel : Nat) (d : DeptFetched) :
    (toNode depts fuel d).nodeId = d.id := by
  cases fuel <;> rfl

/-- Membership in the ids of a forest, unfolded over the forest list. -/
theorem mem_forestNodeIds (x : String) :
    ∀ (ns : List DepartmentNode),
    x ∈ forestNodeIds ns ↔ ∃ n ∈ ns, x ∈ nodeIds n := by
  intro ns
  induction ns with
  | nil => simp [forestNodeIds]
  | cons n rest ih => simp [forestNodeIds, ih]

/-- A row whose truthy parent reference points outside the table never
appears in any materialized subtree rooted at another row. -/
theorem dangling_not_in_toNode (depts : List DeptFetched)
    (hnd : (depts.map DeptFetched.id).Nodup) (d : DeptFetched) (hd : d ∈ depts)
    (p : String) (hp : d.parentId = some p)
    (habs : p ∉ depts.map DeptFetched.id) :
    ∀ (fuel : Nat) (r : DeptFetched), r ∈ depts → r.id ≠ d.id →
    d.id ∉ nodeIds (toNode depts fuel r) := by
  intro fuel
  induction fuel with
  | zero =>
    intro r _ hne
    simp [toNode, nodeIds, forestNodeIds]
    exact fun h => hne h.symm
  | succ n ih =>
    intro r hr hne
    simp only [toNode, nodeIds, List.mem_cons]
    rintro (h | h)
    · exact hne h.symm
    · rw [mem_forestNodeIds] at h
      obtain ⟨node, hnode, hmem⟩ := h
      obtain ⟨c, hc, rfl⟩ := List.mem_map.mp hnode
      have hcd : c ∈ depts := (List.mem_filter.mp hc).1
      have hcpred := (List.mem_filter.mp hc).2
      have hcne : c.id ≠ d.id := by
        intro he
        have hcd2 : c = d := List.inj_on_of_nodup_map hnd hcd hd he
        subst hcd2
        simp only [hp, Bool.and_eq_true, decide_eq_true_eq] at hcpred
        have hpr : p = r.id := by
          have h2 := hcpred.2
          injection h2
        exact habs (hpr ▸ List.mem_map_of_mem DeptFetched.id hr)
      exact ih c hcd hcne hmem

/-- C3 (amended).  The tree assembler returns as roots exactly the nodes with
a falsy `parentRef`, in table order; a node whose `parentRef` is non-null
(and non-empty) but absent from the input is omitted from the returned forest
entirely — it becomes neither a root nor anyone's child.  In particular, for
the input `[{id:1,parent:null},{id:2,parent:1},{id:3,parent:99}]` the roots
are `[1]` with node 1's children `[2]`, and node 3 is dropped. -/
theorem claim3_dangling_parent_node_is_dropped (depts : List DeptFetched)
    (hnd : (depts.map DeptFetched.id).Nodup) (d : DeptFetched) (hd : d ∈ depts)
    (p : String) (hp : d.parentId = some p) (hpe : p ≠ "")
    (habs : p ∉ depts.map DeptFetched.id) :
    d.id ∉ forestNodeIds (getHierarchy depts)
    ∧ (getHierarchy depts).map DepartmentNode.nodeId
        = (depts.filter (fun r => !optTruthy r.parentId)).map DeptFetched.id := by
  constructor
  · rw [mem_forestNodeIds]
    rintro ⟨node, hnode, hmem⟩
    rw [getHierarchy] at hnode
    obtain ⟨r, hr, rfl⟩ := List.mem_map.mp hnode
    have hrd : r ∈ depts := (List.mem_filter.mp hr).1
    have hrpred := (List.mem_filter.mp hr).2
    have hrne : r.id ≠ d.id := by
      intro he
      have : r = d := List.inj_on_of_nodup_map hnd hrd hd he
      subst this
      simp [optTruthy, hp, hpe] at hrpred
    exact dangling_not_in_toNode depts hnd d hd p hp habs depts.length r hrd hrne hmem
  · rw [getHierarchy, List.map_map]
    exact List.map_congr_left (fun r _ => toNode_nodeId depts depts.length r)

/-- C3 counterexample.  For the spec's own scenario input
`[{id:1,parent:null},{id:2,parent:1},{id:3,parent:99}]` (99 absent), the
assembler returns roots `[1]` — node 3 is not made a root; it is dropped
(the forest's only tree is node 1 with child 2). -/
theorem claim3_counterexample :
    (getHierarchy
        [⟨"1", "Engineering", none, none, 0⟩,
         ⟨"2", "Backend", none, some "1", 0⟩,
         ⟨"3", "Orphan", none, some "99", 0⟩]).map DepartmentNode.nodeId = ["1"]
    ∧ ¬((getHierarchy
        [⟨"1", "Engineering", none, none, 0⟩,
         ⟨"2", "Backend", none, some "1", 0⟩,
         ⟨"3", "Orphan", none, some "99", 0⟩]).map DepartmentNode.nodeId = ["1", "3"])
    ∧ (getHierarchy
        [⟨"1", "Engineering", none, none, 0⟩,
         ⟨"2", "Backend", none, some "1", 0⟩,
         ⟨"3", "Orphan", none, some "99", 0⟩]).map
          (fun n => n.nodeChildren.map DepartmentNode.nodeId) = [["2"]] := by
  refine ⟨by decide, by decide, by decide⟩

/-- C3 witness: the amended theorem applied to the same scenario input, with
the dangling row `{id:3,parent:99}`. -/
theorem claim3_witness :
    (([⟨"1", "Engineering", none, none, 0⟩,
       ⟨"2", "Backend", none, some "1", 0⟩,
       ⟨"3", "Orphan", none, some "99", 0⟩] : List DeptFetched).map DeptFetched.id).Nodup
    ∧ ((⟨"3", "Orphan", none, some "99", 0⟩ : DeptFetched) ∈
        ([⟨"1", "Engineering", none, none, 0⟩,
          ⟨"2", "Backend", none, some "1", 0⟩,
          ⟨"3", "Orphan", none, some "99", 0⟩] : List DeptFetched))
    ∧ ("3" ∉ forestNodeIds (getHierarchy
          [⟨"1", "Engineering", none, none, 0⟩,
           ⟨"2", "Backend", none, some "1", 0⟩,
           ⟨"3", "Orphan", none, some "99", 0⟩])
       ∧ (getHierarchy
            [⟨"1", "Engineering", none, none, 0⟩,
             ⟨"2", "Backend", none, some "1", 0⟩,
             ⟨"3", "Orphan", none, some "99", 0⟩]).map DepartmentNode.nodeId
          = (([⟨"1", "Engineering", none, none, 0⟩,
               ⟨"2", "Backend", none, some "1", 0⟩,
               ⟨"3", "Orphan", none, some "99", 0⟩] : List DeptFetched).filter
              (fun r => !optTruthy r.parentId)).map DeptFetched.id) :=
  ⟨by decide, by decide,
   claim3_dangling_parent_node_is_dropped
     [⟨"1", "Engineering", none, none, 0⟩,
      ⟨"2", "Backend", none, some "1", 0⟩,
      ⟨"3", "Orphan", none, some "99", 0⟩]
     (by decide) ⟨"3", "Orphan", none, some "99", 0⟩ (by decide)
     "99" rfl (by decide) (by decide)⟩

/-! ## Claim C4 -/

/-- C4.  In any organization state where the targeted member is found with
role OWNER (and is the organization's only OWNER — the claim's hypothesis,
not needed by the code, which protects every OWNER), and the requester passes
the permission gate with `[OWNER, ADMIN]`: `removeMember` fails with
CANNOT_REMOVE_OWNER and `updateMemberRole` away from OWNER fails with
CANNOT_CHANGE_OWNER_ROLE, and in both cases the returned store — membership
table included — is exactly the input store. -/
theorem claim4_sole_owner_cannot_be_removed_or_demoted (db : OrgDb)
    (orgId userId requesterId : String) (m : MemberRow) (newRole : OrgRole)
    (now : Nat)
    (hfind : findMember db orgId userId = some m)
    (hrole : m.role = OrgRole.OWNER)
    (hsole : (db.members.filter
        (fun x => decide (x.organizationId = orgId ∧ x.role = OrgRole.OWNER))).length = 1)
    (hperm : (PermissionValidationStrategy.validate db orgId requesterId
        [OrgRole.OWNER, OrgRole.ADMIN]).success = true)
    (hnew : newRole ≠ OrgRole.OWNER) :
    OrganizationService.removeMember db orgId userId = (cannotRemoveOwner, db)
    ∧ OrganizationService.updateMemberRole db orgId userId newRole requesterId now
        = (cannotChangeOwnerRole, db) := by
  constructor
  · rw [OrganizationService.removeMember, hfind]
    simp [hrole]
  · rw [OrganizationService.updateMemberRole]
    simp only [hperm, Bool.true_eq_false, if_false, hfind]
    simp [hrole, hnew]

/-- C4 witness: an organization `"o"` whose sole OWNER is user `"u"`, with an
ADMIN requester `"r"`, demotion target role MEMBER. -/
theorem claim4_witness :
    (findMember
        ⟨[⟨"m1", "o", "u", OrgRole.OWNER, 0, 0⟩, ⟨"m2", "o", "r", OrgRole.ADMIN, 0, 0⟩], []⟩
        "o" "u" = some ⟨"m1", "o", "u", OrgRole.OWNER, 0, 0⟩)
    ∧ (PermissionValidationStrategy.validate
        ⟨[⟨"m1", "o", "u", OrgRole.OWNER, 0, 0⟩, ⟨"m2", "o", "r", OrgRole.ADMIN, 0, 0⟩], []⟩
        "o" "r" [OrgRole.OWNER, OrgRole.ADMIN]).success = true
    ∧ (OrganizationService.removeMember
        ⟨[⟨"m1", "o", "u", OrgRole.OWNER, 0, 0⟩, ⟨"m2", "o", "r", OrgRole.ADMIN, 0, 0⟩], []⟩
        "o" "u"
        = (cannotRemoveOwner,
           ⟨[⟨"m1", "o", "u", OrgRole.OWNER, 0, 0⟩, ⟨"m2", "o", "r", OrgRole.ADMIN, 0, 0⟩], []⟩)
      ∧ OrganizationService.updateMemberRole
          ⟨[⟨"m1", "o", "u", OrgRole.OWNER, 0, 0⟩, ⟨"m2", "o", "r", OrgRole.ADMIN, 0, 0⟩], []⟩
          "o" "u" OrgRole.MEMBER "r" 9
        = (cannotChangeOwnerRole,
           ⟨[⟨"m1", "o", "u", OrgRole.OWNER, 0, 0⟩, ⟨"m2", "o", "r", OrgRole.ADMIN, 0, 0⟩], []⟩)) :=
  ⟨by decide, by decide,
   claim4_sole_owner_cannot_be_removed_or_demoted
     ⟨[⟨"m1", "o", "u", OrgRole.OWNER, 0, 0⟩, ⟨"m2", "o", "r", OrgRole.ADMIN, 0, 0⟩], []⟩
     "o" "u" "r" ⟨"m1", "o", "u", OrgRole.OWNER, 0, 0⟩ OrgRole.MEMBER 9
     (by decide) rfl (by decide) (by decide) (by decide)⟩

/-! ## Claim C5 -/

/-- C5.  Deletion guards: when the department exists and has at least one
assigned user, `deleteDepartment` fails with HAS_USERS and returns the store
unchanged; when it exists, has no assigned user and has at least one child,
it fails with HAS_CHILDREN and returns the store unchanged; when the user
exists and has at least one subordinate, `deleteUser` fails with
HAS_SUBORDINATES and returns the store unchanged. -/
theorem claim5_deletion_guards_leave_store_intact (db : AdminDb)
    (deptId uid : String) :
    ((db.departments.find? (fun d => decide (d.id = deptId))).isSome →
      (usersOfDepartment db deptId).length > 0 →
      DepartmentService.deleteDepartment db deptId = (hasUsers, db))
    ∧ ((db.departments.find? (fun d => decide (d.id = deptId))).isSome →
      (usersOfDepartment db deptId).length = 0 →
      (childrenOfDepartment db deptId).length > 0 →
      DepartmentService.deleteDepartment db deptId = (hasChildren, db))
    ∧ ((db.users.find? (fun u => decide (u.id = uid))).isSome →
      (subordinatesOf db uid).length > 0 →
      UserService.deleteUser db uid = (hasSubordinates, db)) := by
  refine ⟨?_, ?_, ?_⟩
  · intro hsome husers
    obtain ⟨d, hd⟩ := Option.isSome_iff_exists.mp hsome
    rw [DepartmentService.deleteDepartment, hd]
    simp [husers]
  · intro hsome husers hchild
    obtain ⟨d, hd⟩ := Option.isSome_iff_exists.mp hsome
    rw [DepartmentService.deleteDepartment, hd]
    simp [husers, hchild]
  · intro hsome hsubs
    obtain ⟨u, hu⟩ := Option.isSome_iff_exists.mp hsome
    rw [UserService.deleteUser, hu]
    simp [hsubs]

/-- C5 witness: a store where department `"d1"` has no user and one child
`"d2"`, department `"d2"` has one assigned user, and user `"u1"` manages
`"u2"` — the three guards fire at those targets and the store is returned
unchanged each time. -/
theorem claim5_witness :
    (DepartmentService.deleteDepartment
        ⟨[⟨"d1", "Eng", none, none, 0, 0⟩, ⟨"d2", "Back", none, some "d1", 0, 0⟩],
         [⟨"u1", "A", "a@x.com", true, none, none, none, 0, 0, false, none, none,
            UserRole.USER, UserStatus.ACTIVE, some "d2", none⟩,
          ⟨"u2", "B", "b@x.com", true, none, none, none, 0, 0, false, none, none,
            UserRole.USER, UserStatus.ACTIVE, none, some "u1"⟩]⟩
        "d2"
      = (hasUsers,
         ⟨[⟨"d1", "Eng", none, none, 0, 0⟩, ⟨"d2", "Back", none, some "d1", 0, 0⟩],
          [⟨"u1", "A", "a@x.com", true, none, none, none, 0, 0, false, none, none,
             UserRole.USER, UserStatus.ACTIVE, some "d2", none⟩,
           ⟨"u2", "B", "b@x.com", true, none, none, none, 0, 0, false, none, none,
             UserRole.USER, UserStatus.ACTIVE, none, some "u1"⟩]⟩))
    ∧ (DepartmentService.deleteDepartment
        ⟨[⟨"d1", "Eng", none, none, 0, 0⟩, ⟨"d2", "Back", none, some "d1", 0, 0⟩],
         [⟨"u1", "A", "a@x.com", true, none, none, none, 0, 0, false, none, none,
            UserRole.USER, UserStatus.ACTIVE, some "d2", none⟩,
          ⟨"u2", "B", "b@x.com", true, none, none, none, 0, 0, false, none, none,
            UserRole.USER, UserStatus.ACTIVE, none, some "u1"⟩]⟩
        "d1"
      = (hasChildren,
         ⟨[⟨"d1", "Eng", none, none, 0, 0⟩, ⟨"d2", "Back", none, some "d1", 0, 0⟩],
          [⟨"u1", "A", "a@x.com", true, none, none, none, 0, 0, false, none, none,
             UserRole.USER, UserStatus.ACTIVE, some "d2", none⟩,
           ⟨"u2", "B", "b@x.com", true, none, none, none, 0, 0, false, none, none,
             UserRole.USER, UserStatus.ACTIVE, none, some "u1"⟩]⟩))
    ∧ (UserService.deleteUser
        ⟨[⟨"d1", "Eng", none, none, 0, 0⟩, ⟨"d2", "Back", none, some "d1", 0, 0⟩],
         [⟨"u1", "A", "a@x.com", true, none, none, none, 0, 0, false, none, none,
            UserRole.USER, UserStatus.ACTIVE, some "d2", none⟩,
          ⟨"u2", "B", "b@x.com", true, none, none, none, 0, 0, false, none, none,
            UserRole.USER, UserStatus.ACTIVE, none, some "u1"⟩]⟩
        "u1"
      = (hasSubordinates,
         ⟨[⟨"d1", "Eng", none, none, 0, 0⟩, ⟨"d2", "Back", none, some "d1", 0, 0⟩],
          [⟨"u1", "A", "a@x.com", true, none, none, none, 0, 0, false, none, none,
             UserRole.USER, UserStatus.ACTIVE, some "d2", none⟩,
           ⟨"u2", "B", "b@x.com", true, none, none, none, 0, 0, false, none, none,
             UserRole.USER, UserStatus.ACTIVE, none, some "u1"⟩]⟩)) :=
  ⟨(claim5_deletion_guards_leave_store_intact _ "d2" "u1").1 (by decide) (by decide),
   (claim5_deletion_guards_leave_store_intact _ "d1" "u1").2.1 (by decide) (by decide) (by decide),
   (claim5_deletion_guards_leave_store_intact _ "d1" "u1").2.2 (by decide) (by decide)⟩

/-! ## Claim C6 -/

/-- C6 (amended).  With the requester past the permission gate:
(a) when a PENDING invitation exists for `(organizationId, lowercased email)`,
`inviteMember` fails with INVITATION_EXISTS and writes nothing;
(b) when no invitation row at all exists for that pair, the created invitation
stores the email lowercased, has status PENDING, and expires seven days after
creation time;
(c) when a row exists for the pair but its status is not PENDING, the store's
unique `(organizationId, email)` index rejects the insert and `inviteMember`
fails with INVITE_ERROR, writing nothing. -/
theorem claim6_invite_pending_uniqueness (db : OrgDb) (dto : InviteMemberDTO)
    (newId : String) (now : Nat)
    (hperm : (PermissionValidationStrategy.validate db dto.organizationId
        dto.inviterId [OrgRole.OWNER, OrgRole.ADMIN]).success = true) :
    (∀ inv, findInvitation db dto.organizationId dto.email = some inv →
        inv.status = InvitationStatus.PENDING →
        OrganizationService.inviteMember db dto newId now = (invitationExists, db))
    ∧ ((∀ i ∈ db.invitations,
          ¬(i.organizationId = dto.organizationId ∧ i.email = toLowerCase dto.email)) →
        OrganizationService.inviteMember db dto newId now
          = ({ success := true },
             { db with invitations := db.invitations ++
                [{ id := newId
                   organizationId := dto.organizationId
                   email := toLowerCase dto.email
                   role := dto.role.getD OrgRole.MEMBER
                   status := InvitationStatus.PENDING
                   inviterId := dto.inviterId
                   expiresAt := now + 7 }] }))
    ∧ (∀ inv, findInvitation db dto.organizationId dto.email = some inv →
        inv.status ≠ InvitationStatus.PENDING →
        OrganizationService.inviteMember db dto newId now = (inviteError, db)) := by
  refine ⟨?_, ?_, ?_⟩
  · intro inv hfind hpend
    rw [OrganizationService.inviteMember]
    simp only [hperm, Bool.true_eq_false, if_false, hfind]
    simp [Option.any, hpend]
  · intro hnone
    have hfind : findInvitation db dto.organizationId dto.email = none := by
      rw [findInvitation, List.find?_eq_none]
      intro i hi
      simpa using hnone i hi
    have hany : db.invitations.any
        (fun i => decide (i.organizationId = dto.organizationId
          ∧ i.email = toLowerCase dto.email)) = false := by
      rw [Bool.eq_false_iff]
      intro hcontra
      obtain ⟨i, hi, hpred⟩ := List.any_eq_true.mp hcontra
      exact hnone i hi (by simpa using hpred)
    rw [OrganizationService.inviteMember]
    simp only [hperm, Bool.true_eq_false, if_false, hfind]
    rw [createInvitation]
    simp only [hany, Option.any]
    simp
  · intro inv hfind hnp
    have hmem : inv ∈ db.invitations := List.mem_of_find?_eq_some hfind
    have hpred : inv.organizationId = dto.organizationId
        ∧ inv.email = toLowerCase dto.email := by
      have h := List.find?_some hfind
      simpa using h
    have hany : db.invitations.any
        (fun i => decide (i.organizationId = dto.organizationId
          ∧ i.email = toLowerCase dto.email)) = true :=
      List.any_eq_true.mpr ⟨inv, hmem, by simpa using hpred⟩
    rw [OrganizationService.inviteMember]
    simp only [hperm, Bool.true_eq_false, if_false, hfind]
    rw [createInvitation]
    simp only [hany, Option.any]
    simp [hnp]

/-- C6 counterexample.  Organization `"o"`, requester `"r"` is its OWNER (the
gate passes); an ACCEPTED — not PENDING — invitation for
`("o", "a@x.com")` is on file.  The claim's "otherwise" branch promises a
created PENDING invitation, but the code hits the unique
`(organizationId, email)` index and fails with INVITE_ERROR, writing
nothing. -/
theorem claim6_counterexample :
    (PermissionValidationStrategy.validate
        ⟨[⟨"m1", "o", "r", OrgRole.OWNER, 0, 0⟩],
         [⟨"i1", "o", "a@x.com", OrgRole.MEMBER, InvitationStatus.ACCEPTED, "r", 5⟩]⟩
        "o" "r" [OrgRole.OWNER, OrgRole.ADMIN]).success = true
    ∧ ((findInvitation
        ⟨[⟨"m1", "o", "r", OrgRole.OWNER, 0, 0⟩],
         [⟨"i1", "o", "a@x.com", OrgRole.MEMBER, InvitationStatus.ACCEPTED, "r", 5⟩]⟩
        "o" "a@x.com").any (fun i => decide (i.status = InvitationStatus.PENDING)) = false)
    ∧ OrganizationService.inviteMember
        ⟨[⟨"m1", "o", "r", OrgRole.OWNER, 0, 0⟩],
         [⟨"i1", "o", "a@x.com", OrgRole.MEMBER, InvitationStatus.ACCEPTED, "r", 5⟩]⟩
        ⟨"o", "a@x.com", none, "r"⟩ "i2" 100
      = (inviteError,
         ⟨[⟨"m1", "o", "r", OrgRole.OWNER, 0, 0⟩],
          [⟨"i1", "o", "a@x.com", OrgRole.MEMBER, InvitationStatus.ACCEPTED, "r", 5⟩]⟩) := by
  refine ⟨by decide, by decide, by decide⟩

/-- C6 witness: the amended theorem's fresh-pair branch at a concrete state —
inviting `"A@X.com"` (mixed case) to organization `"o"` by its OWNER stores
the lowercased email with status PENDING and expiry `100 + 7`. -/
theorem claim6_witness :
    (PermissionValidationStrategy.validate
        ⟨[⟨"m1", "o", "r", OrgRole.OWNER, 0, 0⟩], []⟩
        "o" "r" [OrgRole.OWNER, OrgRole.ADMIN]).success = true
    ∧ toLowerCase "A@X.com" = "a@x.com"
    ∧ OrganizationService.inviteMember
        ⟨[⟨"m1", "o", "r", OrgRole.OWNER, 0, 0⟩], []⟩
        ⟨"o", "A@X.com", none, "r"⟩ "i1" 100
      = ({ success := true },
         { members := [⟨"m1", "o", "r", OrgRole.OWNER, 0, 0⟩]
           invitations := [] ++
            [{ id := "i1"
               organizationId := "o"
               email := toLowerCase "A@X.com"
               role := (none : Option OrgRole).getD OrgRole.MEMBER
               status := InvitationStatus.PENDING
               inviterId := "r"
               expiresAt := 100 + 7 }] }) :=
  ⟨by decide, by decide,
   (claim6_invite_pending_uniqueness
      ⟨[⟨"m1", "o", "r", OrgRole.OWNER, 0, 0⟩], []⟩
      ⟨"o", "A@X.com", none, "r"⟩ "i1" 100 (by decide)).2.1
     (by intro i hi; cases hi)⟩

/-! ## Claim C7 -/

/-- C7.  Partial-update semantics for both update paths: for every request
field, when the field is absent (`undefined`) the entity keeps its prior
value, and when it is defined the given value is written; fields the request
cannot carry at all (`id`, `createdAt`, `emailVerified`) keep their prior
values.  (`updatedAt` is bookkeeping the repository always refreshes and is
not a request field.) -/
theorem claim7_update_writes_only_defined_fields (u : UserRow)
    (dto : UpdateUserDTO) (d : DeptRow) (ddto : UpdateDepartmentDTO) (now : Nat) :
    ((dto.name = none → (UserRepository.update u dto now).name = u.name)
    ∧ (∀ v, dto.name = some v → (UserRepository.update u dto now).name = v)
    ∧ (dto.email = none → (UserRepository.update u dto now).email = u.email)
    ∧ (∀ v, dto.email = some v → (UserRepository.update u dto now).email = v)
    ∧ (dto.role = none → (UserRepository.update u dto now).role = u.role)
    ∧ (∀ v, dto.role = some v → (UserRepository.update u dto now).role = v)
    ∧ (dto.status = none → (UserRepository.update u dto now).status = u.status)
    ∧ (∀ v, dto.status = some v → (UserRepository.update u dto now).status = v)
    ∧ (dto.departmentId = none →
        (UserRepository.update u dto now).departmentId = u.departmentId)
    ∧ (∀ v, dto.departmentId = some v →
        (UserRepository.update u dto now).departmentId = v)
    ∧ (dto.managerId = none →
        (UserRepository.update u dto now).managerId = u.managerId)
    ∧ (∀ v, dto.managerId = some v → (UserRepository.update u dto now).managerId = v)
    ∧ (dto.image = none → (UserRepository.update u dto now).image = u.image)
    ∧ (∀ v, dto.image = some v → (UserRepository.update u dto now).image = v)
    ∧ (dto.birthDate = none →
        (UserRepository.update u dto now).birthDate = u.birthDate)
    ∧ (∀ v, dto.birthDate = some v → (UserRepository.update u dto now).birthDate = v)
    ∧ (dto.phone = none → (UserRepository.update u dto now).phone = u.phone)
    ∧ (∀ v, dto.phone = some v → (UserRepository.update u dto now).phone = v)
    ∧ (dto.banned = none → (UserRepository.update u dto now).banned = u.banned)
    ∧ (∀ v, dto.banned = some v → (UserRepository.update u dto now).banned = v)
    ∧ (dto.banReason = none →
        (UserRepository.update u dto now).banReason = u.banReason)
    ∧ (∀ v, dto.banReason = some v → (UserRepository.update u dto now).banReason = v)
    ∧ (dto.banExpires = none →
        (UserRepository.update u dto now).banExpires = u.banExpires)
    ∧ (∀ v, dto.banExpires = some v →
        (UserRepository.update u dto now).banExpires = v)
    ∧ (UserRepository.update u dto now).id = u.id
    ∧ (UserRepository.update u dto now).createdAt = u.createdAt
    ∧ (UserRepository.update u dto now).emailVerified = u.emailVerified)
    ∧ ((ddto.name = none → (DepartmentRepository.update d ddto now).name = d.name)
    ∧ (∀ v, ddto.name = some v → (DepartmentRepository.update d ddto now).name = v)
    ∧ (ddto.description = none →
        (DepartmentRepository.update d ddto now).description = d.description)
    ∧ (∀ v, ddto.description = some v →
        (DepartmentRepository.update d ddto now).description = v)
    ∧ (ddto.parentId = none →
        (DepartmentRepository.update d ddto now).parentId = d.parentId)
    ∧ (∀ v, ddto.parentId = some v →
        (DepartmentRepository.update d ddto now).parentId = v)
    ∧ (DepartmentRepository.update d ddto now).id = d.id
    ∧ (DepartmentRepository.update d ddto now).createdAt = d.createdAt) := by
  repeat' apply And.intro
  all_goals intros
  all_goals simp_all [UserRepository.update, dbUserUpdate,
    UserDataFactory.prepareUpdateData, DepartmentRepository.update]

/-- C7 witness: updating a concrete user row with a request that defines only
`name` writes the new name and keeps the prior email; a department request
defining only `parentId` keeps the prior name. -/
theorem claim7_witness :
    (UserRepository.update
        ⟨"u1", "Old", "old@x.com", true, none, none, none, 0, 0, false, none, none,
         UserRole.USER, UserStatus.ACTIVE, none, none⟩
        { id := "u1", name := some "New" } 5).name = "New"
    ∧ (UserRepository.update
        ⟨"u1", "Old", "old@x.com", true, none, none, none, 0, 0, false, none, none,
         UserRole.USER, UserStatus.ACTIVE, none, none⟩
        { id := "u1", name := some "New" } 5).email
      = (⟨"u1", "Old", "old@x.com", true, none, none, none, 0, 0, false, none, none,
          UserRole.USER, UserStatus.ACTIVE, none, none⟩ : UserRow).email
    ∧ (DepartmentRepository.update
        ⟨"d1", "Eng", none, none, 0, 0⟩
        { id := "d1", parentId := some (some "d0") } 5).name
      = (⟨"d1", "Eng", none, none, 0, 0⟩ : DeptRow).name :=
  ⟨(claim7_update_writes_only_defined_fields
      ⟨"u1", "Old", "old@x.com", true, none, none, none, 0, 0, false, none, none,
       UserRole.USER, UserStatus.ACTIVE, none, none⟩
      { id := "u1", name := some "New" }
      ⟨"d1", "Eng", none, none, 0, 0⟩
      { id := "d1", parentId := some (some "d0") } 5).1.2.1 "New" rfl,
   (claim7_update_writes_only_defined_fields
      ⟨"u1", "Old", "old@x.com", true, none, none, none, 0, 0, false, none, none,
       UserRole.USER, UserStatus.ACTIVE, none, none⟩
      { id := "u1", name := some "New" }
      ⟨"d1", "Eng", none, none, 0, 0⟩
      { id := "d1", parentId := some (some "d0") } 5).1.2.2.1 rfl,
   (claim7_update_writes_only_defined_fields
      ⟨"u1", "Old", "old@x.com", true, none, none, none, 0, 0, false, none, none,
       UserRole.USER, UserStatus.ACTIVE, none, none⟩
      { id := "u1", name := some "New" }
      ⟨"d1", "Eng", none, none, 0, 0⟩
      { id := "d1", parentId := some (some "d0") } 5).2.1 rfl⟩

/-! ## Claim C8 -/

/-- Collapsing a repeated default: overriding a default twice with the same
optional value equals overriding it once. -/
theorem optGetD_getD {β : Type} (o : Option β) (a : β) :
    o.getD (o.getD a) = o.getD a := by
  cases o <;> rfl

/-- C8.  Updating twice in succession with the same payload yields the same
final entity state as a single update performed at the second call's time —
for both the user and the department update path.  (With the call times equal,
this is literal idempotence.) -/
theorem claim8_update_is_idempotent (u : UserRow) (dto : UpdateUserDTO)
    (d : DeptRow) (ddto : UpdateDepartmentDTO) (t₁ t₂ : Nat) :
    UserRepository.update (UserRepository.update u dto t₁) dto t₂
      = UserRepository.update u dto t₂
    ∧ DepartmentRepository.update (DepartmentRepository.update d ddto t₁) ddto t₂
      = DepartmentRepository.update d ddto t₂ := by
  constructor <;>
    simp [UserRepository.update, dbUserUpdate, UserDataFactory.prepareUpdateData,
      DepartmentRepository.update, optGetD_getD]

/-! ## Claims C9 and C10 -/

/-- With duplicate-free `(organizationId, userId)` pairs — the unique index of
the `organization_member` table — `find?` on a pair returns any member of the
list carrying that pair. -/
theorem find?_memberPair_eq (orgId userId : String) :
    ∀ (l : List MemberRow),
    (l.map (fun x => (x.organizationId, x.userId))).Nodup →
    ∀ m ∈ l, m.organizationId = orgId → m.userId = userId →
    l.find? (fun x => decide (x.organizationId = orgId ∧ x.userId = userId))
      = some m := by
  intro l
  induction l with
  | nil => intro _ m hm; cases hm
  | cons a rest ih =>
    intro hnd m hm h1 h2
    rw [List.map_cons, List.nodup_cons] at hnd
    by_cases ha : a.organizationId = orgId ∧ a.userId = userId
    · have hpa : decide (a.organizationId = orgId ∧ a.userId = userId) = true := by
        simpa using ha
      rw [List.find?_cons, hpa]
      rcases List.mem_cons.mp hm with rfl | hmrest
      · rfl
      · exfalso
        apply hnd.1
        have hmm : (m.organizationId, m.userId)
            ∈ rest.map (fun x => (x.organizationId, x.userId)) :=
          List.mem_map_of_mem _ hmrest
        rw [h1, h2] at hmm
        rw [ha.1, ha.2]
        exact hmm
    · have hpa : decide (a.organizationId = orgId ∧ a.userId = userId) = false := by
        simpa using ha
      rw [List.find?_cons, hpa]
      have hma : m ≠ a := by
        rintro rfl
        exact ha ⟨h1, h2⟩
      have hmrest : m ∈ rest := by
        rcases List.mem_cons.mp hm with rfl | h
        · exact absurd rfl hma
        · exact h
      exact ih hnd.2 m hmrest h1 h2

/-- Packaging of the previous lemma at the `findMember` level. -/
theorem findMember_eq_some (db : OrgDb) (orgId userId : String)
    (hnd : (db.members.map (fun x => (x.organizationId, x.userId))).Nodup)
    (m : MemberRow) (hm : m ∈ db.members)
    (h1 : m.organizationId = orgId) (h2 : m.userId = userId) :
    findMember db orgId userId = some m := by
  rw [findMember]
  exact find?_memberPair_eq orgId userId db.members hnd m hm h1 h2

/-- C9.  With the `(organizationId, userId)` pairs duplicate-free (the
table's unique index), the permission gate succeeds exactly when a membership
row for `(orgId, actor)` exists whose role is in the allowed set; it fails
exactly when no such row exists or its role is outside the set, and every
failure is the INSUFFICIENT_PERMISSIONS result.  The gate takes the store and
returns only a result, so it cannot modify state. -/
theorem claim9_permission_gate_characterization (db : OrgDb)
    (orgId userId : String) (roles : List OrgRole)
    (hnd : (db.members.map (fun x => (x.organizationId, x.userId))).Nodup) :
    ((PermissionValidationStrategy.validate db orgId userId roles).success = true
      ↔ ∃ m ∈ db.members,
          m.organizationId = orgId ∧ m.userId = userId ∧ m.role ∈ roles)
    ∧ ((PermissionValidationStrategy.validate db orgId userId roles).success = false
      ↔ (¬ ∃ m ∈ db.members, m.organizationId = orgId ∧ m.userId = userId)
        ∨ (∃ m ∈ db.members,
            m.organizationId = orgId ∧ m.userId = userId ∧ m.role ∉ roles))
    ∧ ((PermissionValidationStrategy.validate db orgId userId roles).success = false →
        PermissionValidationStrategy.validate db orgId userId roles
          = insufficientPermissions) := by
  cases hf : findMember db orgId userId with
  | none =>
    have hno : ∀ x ∈ db.members,
        ¬(x.organizationId = orgId ∧ x.userId = userId) := by
      intro x hx
      have h := List.find?_eq_none.mp (by rw [findMember] at hf; exact hf) x hx
      simpa using h
    have hv : PermissionValidationStrategy.validate db orgId userId roles
        = insufficientPermissions := by
      rw [PermissionValidationStrategy.validate, hf]
    refine ⟨?_, ?_, fun _ => hv⟩
    · rw [hv]
      simp only [insufficientPermissions]
      constructor
      · intro h; cases h
      · rintro ⟨m, hm, h1, h2, _⟩
        exact absurd ⟨h1, h2⟩ (hno m hm)
    · rw [hv]
      simp only [insufficientPermissions]
      constructor
      · intro _
        exact Or.inl (fun ⟨m, hm, h1, h2⟩ => hno m hm ⟨h1, h2⟩)
      · intro _; trivial
  | some m =>
    have hmem : m ∈ db.members := by
      rw [findMember] at hf; exact List.mem_of_find?_eq_some hf
    have hpair : m.organizationId = orgId ∧ m.userId = userId := by
      rw [findMember] at hf
      have h := List.find?_some hf
      simpa using h
    have huniq : ∀ m' ∈ db.members, m'.organizationId = orgId →
        m'.userId = userId → m' = m := by
      intro m' hm' h1 h2
      have h := findMember_eq_some db orgId userId hnd m' hm' h1 h2
      rw [hf] at h
      exact (Option.some.inj h).symm
    by_cases hrole : m.role ∈ roles
    · have hv : PermissionValidationStrategy.validate db orgId userId roles
          = { success := true } := by
        rw [PermissionValidationStrategy.validate, hf]
        simp [hrole]
      refine ⟨?_, ?_, ?_⟩
      · rw [hv]
        simp only [true_iff]
        exact ⟨m, hmem, hpair.1, hpair.2, hrole⟩
      · rw [hv]
        constructor
        · intro h; cases h
        · rintro (h | ⟨m', hm', h1, h2, hnr⟩)
          · exact absurd ⟨m, hmem, hpair.1, hpair.2⟩ h
          · exact absurd (huniq m' hm' h1 h2 ▸ hnr) (fun hc => hc hrole)
      · rw [hv]
        intro h; cases h
    · have hv : PermissionValidationStrategy.validate db orgId userId roles
          = insufficientPermissions := by
        rw [PermissionValidationStrategy.validate, hf]
        simp [hrole]
      refine ⟨?_, ?_, fun _ => hv⟩
      · rw [hv]
        simp only [insufficientPermissions]
        constructor
        · intro h; cases h
        · rintro ⟨m', hm', h1, h2, hr⟩
          exact absurd (huniq m' hm' h1 h2 ▸ hr) (fun hc => hrole hc)
      · rw [hv]
        simp only [insufficientPermissions]
        constructor
        · intro _
          exact Or.inr ⟨m, hmem, hpair.1, hpair.2, hrole⟩
        · intro _; trivial

/-- C9 witness: a store whose only membership is `("o", "u")` with role
ADMIN, gate `[OWNER, ADMIN]` — the characterization at that state. -/
theorem claim9_witness :
    ((PermissionValidationStrategy.validate
        ⟨[⟨"m1", "o", "u", OrgRole.ADMIN, 0, 0⟩], []⟩ "o" "u"
        [OrgRole.OWNER, OrgRole.ADMIN]).success = true
      ↔ ∃ m ∈ [(⟨"m1", "o", "u", OrgRole.ADMIN, 0, 0⟩ : MemberRow)],
          m.organizationId = "o" ∧ m.userId = "u"
          ∧ m.role ∈ [OrgRole.OWNER, OrgRole.ADMIN])
    ∧ ((PermissionValidationStrategy.validate
        ⟨[⟨"m1", "o", "u", OrgRole.ADMIN, 0, 0⟩], []⟩ "o" "u"
        [OrgRole.OWNER, OrgRole.ADMIN]).success = false
      ↔ (¬ ∃ m ∈ [(⟨"m1", "o", "u", OrgRole.ADMIN, 0, 0⟩ : MemberRow)],
            m.organizationId = "o" ∧ m.userId = "u")
        ∨ (∃ m ∈ [(⟨"m1", "o", "u", OrgRole.ADMIN, 0, 0⟩ : MemberRow)],
            m.organizationId = "o" ∧ m.userId = "u"
            ∧ m.role ∉ [OrgRole.OWNER, OrgRole.ADMIN]))
    ∧ ((PermissionValidationStrategy.validate
        ⟨[⟨"m1", "o", "u", OrgRole.ADMIN, 0, 0⟩], []⟩ "o" "u"
        [OrgRole.OWNER, OrgRole.ADMIN]).success = false →
        PermissionValidationStrategy.validate
          ⟨[⟨"m1", "o", "u", OrgRole.ADMIN, 0, 0⟩], []⟩ "o" "u"
          [OrgRole.OWNER, OrgRole.ADMIN] = insufficientPermissions) :=
  claim9_permission_gate_characterization
    ⟨[⟨"m1", "o", "u", OrgRole.ADMIN, 0, 0⟩], []⟩ "o" "u"
    [OrgRole.OWNER, OrgRole.ADMIN] (by decide)

/-- C10.  `removeMember` takes no requester and runs no permission gate: its
outcome is a function of the store alone.  With the `(organizationId, userId)`
pairs duplicate-free: no membership row for the pair gives MEMBER_NOT_FOUND;
an OWNER row gives CANNOT_REMOVE_OWNER; otherwise the call succeeds and the
new store is the old one with exactly that membership row removed and the
invitations untouched. -/
theorem claim10_remove_member_is_store_determined (db : OrgDb)
    (orgId userId : String)
    (hnd : (db.members.map (fun x => (x.organizationId, x.userId))).Nodup) :
    ((¬ ∃ m ∈ db.members, m.organizationId = orgId ∧ m.userId = userId) →
       removeOrganizationMember db orgId userId = (memberNotFound, db))
    ∧ (∀ m ∈ db.members, m.organizationId = orgId → m.userId = userId →
        m.role = OrgRole.OWNER →
       removeOrganizationMember db orgId userId = (cannotRemoveOwner, db))
    ∧ (∀ m ∈ db.members, m.organizationId = orgId → m.userId = userId →
        m.role ≠ OrgRole.OWNER →
       (removeOrganizationMember db orgId userId).1 = { success := true }
       ∧ m ∉ (removeOrganizationMember db orgId userId).2.members
       ∧ (∀ x ∈ db.members, x ≠ m →
            x ∈ (removeOrganizationMember db orgId userId).2.members)
       ∧ (∀ x ∈ (removeOrganizationMember db orgId userId).2.members,
            x ∈ db.members)
       ∧ (removeOrganizationMember db orgId userId).2.invitations
            = db.invitations) := by
  refine ⟨?_, ?_, ?_⟩
  · intro hne
    have hf : findMember db orgId userId = none := by
      rw [findMember, List.find?_eq_none]
      intro x hx
      simp only [decide_eq_true_eq]
      exact fun hp => hne ⟨x, hx, hp.1, hp.2⟩
    rw [removeOrganizationMember, OrganizationService.removeMember, hf]
  · intro m hm h1 h2 hrole
    have hf : findMember db orgId userId = some m :=
      findMember_eq_some db orgId userId hnd m hm h1 h2
    rw [removeOrganizationMember, OrganizationService.removeMember, hf]
    simp [hrole]
  · intro m hm h1 h2 hrole
    have hf : findMember db orgId userId = some m :=
      findMember_eq_some db orgId userId hnd m hm h1 h2
    have hres : removeOrganizationMember db orgId userId
        = ({ success := true },
           { db with members := (db.members.filter
              (fun x => decide (¬(x.organizationId = orgId ∧ x.userId = userId)))) }) := by
      rw [removeOrganizationMember, OrganizationService.removeMember, hf]
      simp [hrole]
    refine ⟨by rw [hres], ?_, ?_, ?_, by rw [hres]⟩
    · rw [hres]
      intro hcontra
      have h := (List.mem_filter.mp hcontra).2
      simp only [decide_eq_true_eq] at h
      exact h ⟨h1, h2⟩
    · intro x hx hxm
      rw [hres]
      apply List.mem_filter.mpr
      refine ⟨hx, ?_⟩
      simp only [decide_eq_true_eq]
      intro hp
      have hxeq : x = m := by
        have h := findMember_eq_some db orgId userId hnd x hx hp.1 hp.2
        rw [hf] at h
        exact (Option.some.inj h).symm
      exact hxm hxeq
    · intro x hx
      rw [hres] at hx
      exact (List.mem_filter.mp hx).1

/-- C10 witness: the non-owner branch at a one-member store — removal
succeeds, the row is gone, nothing else changes. -/
theorem claim10_witness :
    (removeOrganizationMember ⟨[⟨"m1", "o", "u", OrgRole.MEMBER, 0, 0⟩], []⟩ "o" "u").1
        = { success := true }
    ∧ (⟨"m1", "o", "u", OrgRole.MEMBER, 0, 0⟩ : MemberRow)
        ∉ (removeOrganizationMember
            ⟨[⟨"m1", "o", "u", OrgRole.MEMBER, 0, 0⟩], []⟩ "o" "u").2.members
    ∧ (∀ x ∈ [(⟨"m1", "o", "u", OrgRole.MEMBER, 0, 0⟩ : MemberRow)],
        x ≠ ⟨"m1", "o", "u", OrgRole.MEMBER, 0, 0⟩ →
        x ∈ (removeOrganizationMember
              ⟨[⟨"m1", "o", "u", OrgRole.MEMBER, 0, 0⟩], []⟩ "o" "u").2.members)
    ∧ (∀ x ∈ (removeOrganizationMember
          ⟨[⟨"m1", "o", "u", OrgRole.MEMBER, 0, 0⟩], []⟩ "o" "u").2.members,
        x ∈ [(⟨"m1", "o", "u", OrgRole.MEMBER, 0, 0⟩ : MemberRow)])
    ∧ (removeOrganizationMember
          ⟨[⟨"m1", "o", "u", OrgRole.MEMBER, 0, 0⟩], []⟩ "o" "u").2.invitations
        = ([] : List InvitationRow) :=
  (claim10_remove_member_is_store_determined
      ⟨[⟨"m1", "o", "u", OrgRole.MEMBER, 0, 0⟩], []⟩ "o" "u" (by decide)).2.2
    ⟨"m1", "o", "u", OrgRole.MEMBER, 0, 0⟩ (by decide) rfl rfl (by decide)

end Alpaca
